import Mathlib

/-!
Shallow embedding of the `pmrs-cli` command-line front end (`src/main.rs`).

The CLI dispatches parsed arguments to the external `pmrs` process-mining
library (OCEL validation, OCDG generation, decomposition, import/export) and
only logs, prints and threads values between those calls.  `main` is embedded
here as a pure function from the parsed arguments plus an oracle of the
external calls' results to the ordered trace of observable effects: logger
initialisation, log lines, printed lines, and the library calls made.

Types owned by the external `pmrs` library (the Relation Catalog, the OCDG
graph model, the decomposition algorithm) are not part of this repository's
sources; they are modelled from the specification and marked as such in their
doc comments.
-/

namespace PmrsCli

/-- Modelled from the spec: the closed Relation Catalog of the external `pmrs`
engine, a sum type with one arm per relation kind; the spec names
co-occurrence, descendant and type-inheritance as its members. -/
inductive Relations where
  | cooccurrence
  | descendant
  | typeInheritance
deriving DecidableEq, BEq, Repr

/-- Modelled from the spec: the catalog's iteration order.  In the source,
`Relations::iter()` (from `strum::IntoEnumIterator`) enumerates every variant
of the enumeration once, in declaration order. -/
def Relations.iterList : List Relations :=
  [Relations.cooccurrence, Relations.descendant, Relations.typeInheritance]

/-- Modelled from the spec: a Dependency Edge of the OCDG — source and target
object identifiers, relation kind, weight, and evidence (the event identifiers
justifying the edge). -/
structure Edge where
  src : String
  tgt : String
  kind : Relations
  weight : Nat
  evidence : List String
deriving DecidableEq, BEq, Repr

/-- Modelled from the spec: the OCDG graph model — object nodes plus the set of
dependency edges. -/
structure Ocdg where
  nodes : List String
  edges : List Edge
deriving DecidableEq, BEq, Repr

/-- Modelled from the spec: an edge is redundant when some intermediate object
distinct from its endpoints provides a same-kind 2-hop path from its source to
its target. -/
def twoHopWitness (es : List Edge) (e : Edge) : Bool :=
  es.any fun e1 => es.any fun e2 =>
    e1.kind == e.kind && e2.kind == e.kind &&
    e1.src == e.src && e2.tgt == e.tgt && e1.tgt == e2.src &&
    e1.tgt != e.src && e1.tgt != e.tgt

/-- Modelled from the spec: the evidence of removed redundant edges is merged
into the surviving same-kind edges touching their endpoints, so no provenance
is lost. -/
def mergeEvidence (removed : List Edge) (e : Edge) : Edge :=
  { e with evidence :=
      e.evidence ++
        ((removed.filter fun r =>
            r.kind == e.kind && (r.src == e.src || r.tgt == e.tgt)).map
          Edge.evidence).flatten }

/-- Modelled from the spec: `decompose_in_place` of
`pmrs::objects::ocdg::decomposition`, whose implementation is not part of this
repository.  Per relation kind it removes every edge that has a same-kind
2-hop witness, merges the removed evidence into surviving edges, and leaves
the node set untouched. -/
def decompose_in_place (g : Ocdg) : Ocdg :=
  let removed := g.edges.filter fun e => twoHopWitness g.edges e
  let kept := g.edges.filter fun e => !twoHopWitness g.edges e
  { nodes := g.nodes, edges := kept.map (mergeEvidence removed) }

/-- Modelled from the spec: the in-memory Log Model produced by the importer.
The CLI never inspects it; it only threads it from `import_ocel` to
`generate_ocdg`. -/
structure OcelLog where
  tag : Nat := 0
deriving DecidableEq, Repr

/-- Arguments of `ocdg generate` (struct `OcdgGeneration` in `src/main.rs`). -/
structure OcdgGeneration where
  path : String
  output : Option String
deriving DecidableEq, Repr

/-- Arguments of `ocdg decompose` (struct `OcdgDecompose` in `src/main.rs`);
`PathBuf` fields are modelled as strings. -/
structure OcdgDecompose where
  path : String
  output : Option String
deriving DecidableEq, Repr

/-- Arguments of `ocel validate` (struct `Validate` in `src/main.rs`). -/
structure Validate where
  path : String
  verbose : Bool
deriving DecidableEq, Repr

/-- Arguments of `ocel situations` (struct `OcelSituations` in `src/main.rs`). -/
structure OcelSituations where
  situation_type : Bool
deriving DecidableEq, Repr

/-- The `ocel` subcommands (enum `OcelCommands` in `src/main.rs`). -/
inductive OcelCommands where
  | validate (v : Validate)
  | situations (s : OcelSituations)
deriving DecidableEq, Repr

/-- The `ocdg` subcommands (enum `OcdgCommands` in `src/main.rs`). -/
inductive OcdgCommands where
  | generate (g : OcdgGeneration)
  | decompose (d : OcdgDecompose)
deriving DecidableEq, Repr

/-- The top-level subcommands (enum `BaseCommands` in `src/main.rs`). -/
inductive BaseCommands where
  | ocel (c : OcelCommands)
  | ocdg (c : OcdgCommands)
deriving DecidableEq, Repr

/-- The parsed command line (struct `Cli` in `src/main.rs`): the global
`--debug` flag plus the chosen subcommand. -/
structure Cli where
  debug : Bool
  commands : BaseCommands
deriving DecidableEq, Repr

/-- Observable actions of one CLI run, in program order: logger setup, emitted
log lines, printed lines, and the external library calls `main` makes. -/
inductive Effect where
  | loggerInitDebugStdout
  | loggerInitEnvDefault
  | logDebug (msg : String)
  | logError (msg : String)
  | printLine (msg : String)
  | callValidateOcel (path : String)
  | callValidateOcelVerbose (path : String)
  | callImportOcel (path : String)
  | callGenerateOcdg (relations : List Relations)
  | callImportOcdg (path : String)
  | callDecompose (g : Ocdg)
  | callExportOcdg (dest : String)
deriving DecidableEq, Repr

/-- Results of the external `pmrs` library calls, abstracted as an oracle so
that `main` can be embedded as a pure function.  Errors are represented by
their rendered text. -/
structure World where
  validateOcel : String → Except String Bool
  validateOcelVerbose : String → Except String (List (String × String))
  importOcel : String → Except String OcelLog
  generateOcdg : OcelLog → List Relations → Ocdg
  importOcdg : String → Except String Ocdg
  exportOcdg : Ocdg → String → Except String Unit

/-- Rust `Debug` formatting of a string-like value, which wraps it in
quotes. -/
def debugQuote (s : String) : String := "\"" ++ s ++ "\""

/-- Rust `str::ends_with`: `s` ends with `post`. -/
def rsEndsWith (s post : String) : Bool :=
  post.data.isSuffixOf s.data

/-- Splits a character list at every occurrence of the separator, keeping empty
segments. -/
def splitChar (c : Char) : List Char → List (List Char)
  | [] => [[]]
  | x :: xs =>
    let r := splitChar c xs
    if x = c then [] :: r
    else
      match r with
      | [] => [[x]]
      | y :: ys => (x :: y) :: ys

/-- Rust `Path::file_name`: the last normal component of the path.  Empty and
`.` components are dropped by path normalization, and a path whose last
component is `..` has no file name. -/
def rsFileName (p : String) : Option String :=
  let comps := (splitChar '/' p.data).filter fun c => !c.isEmpty && c != ['.']
  match comps.getLast? with
  | none => none
  | some last => if last = ['.', '.'] then none else some (String.mk last)

/-- Rust `Path::extension`: the portion of the file name after its final dot;
none when the file name has no dot, or when its only dot is the leading dot of
a hidden file. -/
def rsExtension (p : String) : Option String :=
  match rsFileName p with
  | none => none
  | some f =>
    match splitChar '.' f.data with
    | [] => none
    | [_] => none
    | [[], _] => none
    | parts => some (String.mk ((parts.getLast?).getD []))

/-- The `ocel validate` arm of `main` (`src/main.rs`).  The path must end in
`.jsonocel`; then the verbose or plain validator is called and its result
printed, one line per violation plus a summary line in the verbose case. -/
def runValidate (w : World) (v : Validate) : List Effect :=
  if rsEndsWith v.path ".jsonocel" then
    if v.verbose then
      Effect.callValidateOcelVerbose v.path ::
        match w.validateOcelVerbose v.path with
        | Except.ok errs =>
            (errs.enum.map fun ie =>
              Effect.printLine
                ("Error " ++ toString (ie.1 + 1) ++ ": " ++ ie.2.1 ++ " at " ++ ie.2.2)) ++
            [Effect.printLine (v.path ++ ": " ++ toString errs.isEmpty)]
        | Except.error e => [Effect.printLine ("There was an Error: " ++ e)]
    else
      Effect.callValidateOcel v.path ::
        match w.validateOcel v.path with
        | Except.ok b => [Effect.printLine (v.path ++ ": " ++ toString b)]
        | Except.error e => [Effect.printLine ("There was an Error: " ++ e)]
  else
    [Effect.logError ("Error: " ++ v.path ++ " file format is not supported.")]

/-- The `ocdg generate` arm of `main` (`src/main.rs`): resolve the output path
(default `output.gexf`), import the OCEL, generate the OCDG over the full
relation catalog, and export it, logging any error. -/
def runGenerate (w : World) (g : OcdgGeneration) : List Effect :=
  let output_path := match g.output with
    | some custom => custom
    | none => "output.gexf"
  let setupEffects := match g.output with
    | some custom => [Effect.logDebug ("Setting custom output path to " ++ debugQuote custom)]
    | none => []
  let relations := Relations.iterList
  setupEffects ++
    (Effect.logDebug ("Importing log: " ++ debugQuote g.path) ::
     Effect.callImportOcel g.path ::
      match w.importOcel g.path with
      | Except.ok lg =>
          Effect.logDebug "Generating OCDG on relations." ::
          Effect.callGenerateOcdg relations ::
          Effect.logDebug "Exporting the generated OCDG." ::
          Effect.callExportOcdg output_path ::
            match w.exportOcdg (w.generateOcdg lg relations) output_path with
            | Except.ok _ =>
                [Effect.logDebug ("Successfully exported the OCDG to: " ++ debugQuote output_path)]
            | Except.error e =>
                [Effect.logError ("Generating the OCDG had the following error: " ++ e)]
      | Except.error e =>
          [Effect.logError ("Importing the log had the following error: " ++ e)])

/-- The `ocdg decompose` arm of `main` (`src/main.rs`): resolve the output path
(default `output-decomposed.gexf`), require a `gexf` or `gexfocdg` file
extension, then import, decompose and export, logging any error. -/
def runDecompose (w : World) (d : OcdgDecompose) : List Effect :=
  let output_path := match d.output with
    | some path => path
    | none => "output-decomposed.gexf"
  let setupEffects := match d.output with
    | some path => [Effect.logDebug ("Custom path of " ++ debugQuote path ++ " selected")]
    | none => []
  setupEffects ++
    match rsExtension d.path with
    | some ext =>
      if ext = "gexf" ∨ ext = "gexfocdg" then
        Effect.logDebug ("Importing " ++ debugQuote d.path) ::
        Effect.callImportOcdg d.path ::
          match w.importOcdg d.path with
          | Except.ok g =>
              Effect.logDebug "Decomposing OCDG." ::
              Effect.callDecompose g ::
              Effect.logDebug ("Attempting to export the OCDG to " ++ debugQuote output_path) ::
              Effect.callExportOcdg output_path ::
                match w.exportOcdg (decompose_in_place g) output_path with
                | Except.ok _ =>
                    [Effect.logDebug
                      ("Successfully exported the decomposed OCDG to: " ++ debugQuote output_path)]
                | Except.error e =>
                    [Effect.logError ("Could not export OCDG due to: " ++ e)]
          | Except.error e =>
              [Effect.logError
                ("Failed to import " ++ debugQuote d.path ++ " with error: " ++ e)]
      else
        [Effect.logError ("Invalid file type: " ++ debugQuote ext)]
    | none => [Effect.logError "Please provide a file with a file extension."]

/-- Dispatch of the `ocel` subcommands; the `situations` arm is empty in the
source. -/
def dispatchOcel (w : World) (c : OcelCommands) : List Effect :=
  match c with
  | OcelCommands.validate v => runValidate w v
  | OcelCommands.situations _ => []

/-- Dispatch of the `ocdg` subcommands. -/
def dispatchOcdg (w : World) (c : OcdgCommands) : List Effect :=
  match c with
  | OcdgCommands.generate g => runGenerate w g
  | OcdgCommands.decompose d => runDecompose w d

/-- Dispatch of the top-level subcommands. -/
def dispatch (w : World) (c : BaseCommands) : List Effect :=
  match c with
  | BaseCommands.ocel sub => dispatchOcel w sub
  | BaseCommands.ocdg sub => dispatchOcdg w sub

/-- Logger initialisation: with `--debug`, a builder targeting stdout with
filter level `Debug`; otherwise the environment-driven default logger. -/
def loggerEffect (debug : Bool) : Effect :=
  if debug then Effect.loggerInitDebugStdout else Effect.loggerInitEnvDefault

/-- The whole of `main`: initialise the logger from the global `--debug` flag,
then dispatch on the parsed subcommand. -/
def run (w : World) (cli : Cli) : List Effect :=
  loggerEffect cli.debug :: dispatch w cli.commands

/-- Extracts the text of a printed line, if the effect is one. -/
def printedLine : Effect → Option String
  | Effect.printLine m => some m
  | _ => none

/-- Whether an effect is a logger initialisation. -/
def Effect.isLoggerInit : Effect → Bool
  | Effect.loggerInitDebugStdout => true
  | Effect.loggerInitEnvDefault => true
  | _ => false

/-- A small concrete OCDG used by the witness worlds. -/
def sampleOcdg : Ocdg := { nodes := ["o1", "o2"], edges := [] }

/-- A witness world in which every external call succeeds. -/
def wOk : World where
  validateOcel := fun _ => Except.ok true
  validateOcelVerbose := fun _ => Except.ok [("missing events field", "event e7")]
  importOcel := fun _ => Except.ok {}
  generateOcdg := fun _ _ => sampleOcdg
  importOcdg := fun _ => Except.ok sampleOcdg
  exportOcdg := fun _ _ => Except.ok ()

/-- A witness world in which every external call fails. -/
def wErr : World where
  validateOcel := fun _ => Except.error "parse failure"
  validateOcelVerbose := fun _ => Except.error "parse failure"
  importOcel := fun _ => Except.error "no such file"
  generateOcdg := fun _ _ => sampleOcdg
  importOcdg := fun _ => Except.error "no such file"
  exportOcdg := fun _ _ => Except.error "permission denied"

/-! ## Helper lemmas -/

lemma filterMap_printedLine_comp {α : Type} (f : α → String) (l : List α) :
    l.filterMap (printedLine ∘ fun a => Effect.printLine (f a)) = l.map f := by
  induction l with
  | nil => rfl
  | cons x xs ih => simp [printedLine, Function.comp, ih]

lemma filter_loggerInit_map_printLine {α : Type} (f : α → String) (l : List α) :
    (l.map fun a => Effect.printLine (f a)).filter Effect.isLoggerInit = [] := by
  induction l with
  | nil => rfl
  | cons x xs ih => simp [Effect.isLoggerInit, ih]

lemma filter_loggerInit_runValidate (w : World) (v : Validate) :
    (runValidate w v).filter Effect.isLoggerInit = [] := by
  simp only [runValidate]
  repeat' split
  all_goals
    simp [Effect.isLoggerInit, List.filter_append, filter_loggerInit_map_printLine]

lemma filter_loggerInit_runGenerate (w : World) (g : OcdgGeneration) :
    (runGenerate w g).filter Effect.isLoggerInit = [] := by
  simp only [runGenerate]
  repeat' split
  all_goals simp [Effect.isLoggerInit, List.filter_append]

lemma filter_loggerInit_runDecompose (w : World) (d : OcdgDecompose) :
    (runDecompose w d).filter Effect.isLoggerInit = [] := by
  simp only [runDecompose]
  repeat' split
  all_goals simp [Effect.isLoggerInit, List.filter_append]

lemma filter_loggerInit_dispatch (w : World) (c : BaseCommands) :
    (dispatch w c).filter Effect.isLoggerInit = [] := by
  rcases c with sub | sub
  · rcases sub with v | s
    · exact filter_loggerInit_runValidate w v
    · rfl
  · rcases sub with g | d
    · exact filter_loggerInit_runGenerate w g
    · exact filter_loggerInit_runDecompose w d

/-! ## Claim theorems -/

/-- C1: every `ocdg generate` invocation passes the full enumerated Relation
Catalog — every member of the `Relations` enumeration, in iteration order — to
the relation-computation engine; the CLI never passes a proper subset. -/
theorem generate_uses_full_catalog (w : World) (b : Bool) (g : OcdgGeneration)
    (rs : List Relations)
    (h : Effect.callGenerateOcdg rs ∈
      run w (Cli.mk b (BaseCommands.ocdg (OcdgCommands.generate g)))) :
    rs = Relations.iterList ∧ ∀ r : Relations, r ∈ rs := by
  have hfull : ∀ r : Relations, r ∈ Relations.iterList := by
    intro r; cases r <;> simp [Relations.iterList]
  suffices hrs : rs = Relations.iterList from ⟨hrs, fun r => hrs ▸ hfull r⟩
  revert h
  simp only [run, dispatch, dispatchOcdg, runGenerate, loggerEffect]
  repeat' split
  all_goals (intro h; simp at h)
  all_goals (try exact h)

/-- Witness for C1: the concrete call recorded by a run on `wOk` carries the
full catalog. -/
theorem generate_uses_full_catalog_witness :
    [Relations.cooccurrence, Relations.descendant, Relations.typeInheritance] =
      Relations.iterList
    ∧ ∀ r : Relations,
        r ∈ [Relations.cooccurrence, Relations.descendant, Relations.typeInheritance] :=
  generate_uses_full_catalog wOk false ⟨"log.jsonocel", none⟩
    [Relations.cooccurrence, Relations.descendant, Relations.typeInheritance] (by decide)

/-- C2: for `ocdg generate` the export destination is the `--output` argument
when given and exactly `output.gexf` otherwise. -/
theorem generate_export_destination (w : World) (b : Bool) (g : OcdgGeneration)
    (dest : String)
    (h : Effect.callExportOcdg dest ∈
      run w (Cli.mk b (BaseCommands.ocdg (OcdgCommands.generate g)))) :
    dest = g.output.getD "output.gexf" := by
  revert h
  simp only [run, dispatch, dispatchOcdg, runGenerate, loggerEffect]
  repeat' split
  all_goals (intro h; simp at h)
  all_goals simp_all

/-- Witness for C2 at a concrete invocation with a custom output path. -/
theorem generate_export_destination_witness :
    "custom.gexf" =
      (OcdgGeneration.mk "log.jsonocel" (some "custom.gexf")).output.getD "output.gexf" :=
  generate_export_destination wOk false ⟨"log.jsonocel", some "custom.gexf"⟩
    "custom.gexf" (by decide)

/-- C3: for `ocdg decompose` the export destination is the `--output` argument
when given and exactly `output-decomposed.gexf` otherwise. -/
theorem decompose_export_destination (w : World) (b : Bool) (d : OcdgDecompose)
    (dest : String)
    (h : Effect.callExportOcdg dest ∈
      run w (Cli.mk b (BaseCommands.ocdg (OcdgCommands.decompose d)))) :
    dest = d.output.getD "output-decomposed.gexf" := by
  revert h
  simp only [run, dispatch, dispatchOcdg, runDecompose, loggerEffect]
  repeat' split
  all_goals (intro h; simp at h)
  all_goals simp_all

/-- Witness for C3 at a concrete invocation without `--output`. -/
theorem decompose_export_destination_witness :
    "output-decomposed.gexf" =
      (OcdgDecompose.mk "graph.gexf" none).output.getD "output-decomposed.gexf" :=
  decompose_export_destination wOk false ⟨"graph.gexf", none⟩
    "output-decomposed.gexf" (by decide)

/-- C4: `ocdg decompose` imports the graph exactly when the input path's file
extension is `gexf` or `gexfocdg`; for any other extension, or a path with no
extension, an error is logged and no import, decomposition or export is
attempted. -/
theorem decompose_import_iff_extension (w : World) (b : Bool) (d : OcdgDecompose) :
    (Effect.callImportOcdg d.path ∈
        run w (Cli.mk b (BaseCommands.ocdg (OcdgCommands.decompose d))) ↔
      (rsExtension d.path = some "gexf" ∨ rsExtension d.path = some "gexfocdg"))
    ∧ (¬(rsExtension d.path = some "gexf" ∨ rsExtension d.path = some "gexfocdg") →
        (∃ m, Effect.logError m ∈
          run w (Cli.mk b (BaseCommands.ocdg (OcdgCommands.decompose d))))
        ∧ (∀ p, Effect.callImportOcdg p ∉
            run w (Cli.mk b (BaseCommands.ocdg (OcdgCommands.decompose d))))
        ∧ (∀ g, Effect.callDecompose g ∉
            run w (Cli.mk b (BaseCommands.ocdg (OcdgCommands.decompose d))))
        ∧ (∀ q, Effect.callExportOcdg q ∉
            run w (Cli.mk b (BaseCommands.ocdg (OcdgCommands.decompose d))))) := by
  by_cases hgood : rsExtension d.path = some "gexf" ∨ rsExtension d.path = some "gexfocdg"
  · refine ⟨⟨fun _ => hgood, fun _ => ?_⟩, fun hbad => absurd hgood hbad⟩
    simp only [run, dispatch, dispatchOcdg, runDecompose]
    rcases hgood with hg | hg <;>
      rw [hg] <;>
        simp [List.mem_append]
  · have hbadrun : runDecompose w d =
        (match d.output with
          | some path => [Effect.logDebug ("Custom path of " ++ debugQuote path ++ " selected")]
          | none => []) ++
        [Effect.logError (match rsExtension d.path with
          | some ext => "Invalid file type: " ++ debugQuote ext
          | none => "Please provide a file with a file extension.")] := by
      rcases hE : rsExtension d.path with _ | ext
      · simp only [runDecompose, hE]
      · have hne : ¬(ext = "gexf" ∨ ext = "gexfocdg") := by
          rw [hE] at hgood
          simpa using hgood
        simp only [runDecompose, hE, if_neg hne]
    have hrun : run w (Cli.mk b (BaseCommands.ocdg (OcdgCommands.decompose d))) =
        loggerEffect b :: runDecompose w d := rfl
    refine ⟨⟨fun h => ?_, fun hg => absurd hg hgood⟩,
      fun _ =>
        ⟨⟨(match rsExtension d.path with
            | some ext => "Invalid file type: " ++ debugQuote ext
            | none => "Please provide a file with a file extension."), ?_⟩,
          fun p hp => ?_, fun g hg => ?_, fun q hq => ?_⟩⟩
    · rw [hrun, hbadrun] at h
      rcases hO : d.output with _ | c <;> rw [hO] at h <;> cases b <;>
        simp [loggerEffect] at h
    · rw [hrun, hbadrun]
      simp
    · rw [hrun, hbadrun] at hp
      rcases hO : d.output with _ | c <;> rw [hO] at hp <;> cases b <;>
        simp [loggerEffect] at hp
    · rw [hrun, hbadrun] at hg
      rcases hO : d.output with _ | c <;> rw [hO] at hg <;> cases b <;>
        simp [loggerEffect] at hg
    · rw [hrun, hbadrun] at hq
      rcases hO : d.output with _ | c <;> rw [hO] at hq <;> cases b <;>
        simp [loggerEffect] at hq

/-- Witness for C4: with a `.gexf` input the import call is made, and with a
`.txt` input an error is logged and the import call is absent. -/
theorem decompose_import_iff_extension_witness :
    (Effect.callImportOcdg "graph.gexf" ∈
      run wOk (Cli.mk false (BaseCommands.ocdg (OcdgCommands.decompose ⟨"graph.gexf", none⟩))))
    ∧ (Effect.callImportOcdg "graph.txt" ∉
      run wOk (Cli.mk false (BaseCommands.ocdg (OcdgCommands.decompose ⟨"graph.txt", none⟩)))) :=
  ⟨((decompose_import_iff_extension wOk false ⟨"graph.gexf", none⟩).1).mpr (by decide),
   ((decompose_import_iff_extension wOk false ⟨"graph.txt", none⟩).2 (by decide)).2.1
     "graph.txt"⟩

/-- C5: `ocel validate` calls a validation function exactly when the path
string ends with `.jsonocel`; otherwise an unsupported-format error is logged
and no validation occurs. -/
theorem validate_called_iff_extension (w : World) (b vb : Bool) (p : String) :
    ((Effect.callValidateOcel p ∈
        run w (Cli.mk b (BaseCommands.ocel (OcelCommands.validate ⟨p, vb⟩)))
      ∨ Effect.callValidateOcelVerbose p ∈
        run w (Cli.mk b (BaseCommands.ocel (OcelCommands.validate ⟨p, vb⟩)))) ↔
      rsEndsWith p ".jsonocel" = true)
    ∧ (rsEndsWith p ".jsonocel" = false →
        Effect.logError ("Error: " ++ p ++ " file format is not supported.") ∈
          run w (Cli.mk b (BaseCommands.ocel (OcelCommands.validate ⟨p, vb⟩)))
        ∧ (∀ q, Effect.callValidateOcel q ∉
            run w (Cli.mk b (BaseCommands.ocel (OcelCommands.validate ⟨p, vb⟩))))
        ∧ (∀ q, Effect.callValidateOcelVerbose q ∉
            run w (Cli.mk b (BaseCommands.ocel (OcelCommands.validate ⟨p, vb⟩))))) := by
  by_cases hE : rsEndsWith p ".jsonocel" = true
  · refine ⟨⟨fun _ => hE, fun _ => ?_⟩, fun hFalse => by simp [hE] at hFalse⟩
    simp only [run, dispatch, dispatchOcel, runValidate, hE]
    cases vb <;> simp
  · have hF : rsEndsWith p ".jsonocel" = false := by
      cases hx : rsEndsWith p ".jsonocel"
      · rfl
      · exact absurd hx hE
    have hbadrun : runValidate w ⟨p, vb⟩ =
        [Effect.logError ("Error: " ++ p ++ " file format is not supported.")] := by
      simp only [runValidate, hF]
      simp
    have hrun : run w (Cli.mk b (BaseCommands.ocel (OcelCommands.validate ⟨p, vb⟩))) =
        loggerEffect b :: runValidate w ⟨p, vb⟩ := rfl
    refine ⟨⟨fun h => ?_, fun hT => absurd hT hE⟩,
      fun _ => ⟨?_, fun q hq => ?_, fun q hq => ?_⟩⟩
    · rw [hrun, hbadrun] at h
      cases b <;> simp [loggerEffect] at h
    · rw [hrun, hbadrun]
      simp
    · rw [hrun, hbadrun] at hq
      cases b <;> simp [loggerEffect] at hq
    · rw [hrun, hbadrun] at hq
      cases b <;> simp [loggerEffect] at hq

/-- Witness for C5: with a `.jsonocel` path the validator is called, and with
a `.json` path the unsupported-format error is logged instead. -/
theorem validate_called_iff_extension_witness :
    (Effect.callValidateOcel "log.jsonocel" ∈
      run wOk (Cli.mk false (BaseCommands.ocel (OcelCommands.validate ⟨"log.jsonocel", false⟩)))
      ∨ Effect.callValidateOcelVerbose "log.jsonocel" ∈
      run wOk (Cli.mk false (BaseCommands.ocel (OcelCommands.validate ⟨"log.jsonocel", false⟩))))
    ∧ Effect.logError ("Error: " ++ "log.json" ++ " file format is not supported.") ∈
      run wOk (Cli.mk false (BaseCommands.ocel (OcelCommands.validate ⟨"log.json", false⟩))) :=
  ⟨((validate_called_iff_extension wOk false false "log.jsonocel").1).mpr (by decide),
   ((validate_called_iff_extension wOk false false "log.json").2 (by decide)).1⟩

/-- C6: a successful `ocel validate --verbose` run prints exactly one line per
violation, of the form `Error i: <message> at <location>` with `i` counting
from 1 in list order, followed by the pass/fail line `<path>: <b>` where `b`
is true exactly when the violation list is empty. -/
theorem validate_verbose_prints (w : World) (b : Bool) (p : String)
    (errs : List (String × String))
    (hE : rsEndsWith p ".jsonocel" = true)
    (hres : w.validateOcelVerbose p = Except.ok errs) :
    (run w (Cli.mk b (BaseCommands.ocel (OcelCommands.validate ⟨p, true⟩)))).filterMap
        printedLine =
      (errs.enum.map fun ie =>
        "Error " ++ toString (ie.1 + 1) ++ ": " ++ ie.2.1 ++ " at " ++ ie.2.2)
      ++ [p ++ ": " ++ toString errs.isEmpty] := by
  simp only [run, dispatch, dispatchOcel, runValidate, hE, hres]
  cases b <;>
    simp [loggerEffect, printedLine, List.filterMap_append, filterMap_printedLine_comp]

/-- Witness for C6: on `wOk` a verbose validation of a concrete log prints the
single violation line followed by the summary line. -/
theorem validate_verbose_prints_witness :
    (run wOk (Cli.mk false
        (BaseCommands.ocel (OcelCommands.validate ⟨"log.jsonocel", true⟩)))).filterMap
        printedLine =
      (([("missing events field", "event e7")] : List (String × String)).enum.map fun ie =>
        "Error " ++ toString (ie.1 + 1) ++ ": " ++ ie.2.1 ++ " at " ++ ie.2.2)
      ++ ["log.jsonocel" ++ ": " ++
            toString ([("missing events field", "event e7")] : List (String × String)).isEmpty] :=
  validate_verbose_prints wOk false "log.jsonocel" [("missing events field", "event e7")]
    (by decide) rfl

/-- C7: whenever an external import, validation or export call returns an
error, the corresponding match arm logs or prints that error and the run
still produces its full effect trace — every error case of every subcommand
is covered by a non-fatal reporting branch, and the embedded `main` is a
total function. -/
theorem core_errors_logged (w : World) (b : Bool) :
    (∀ (g : OcdgGeneration) (e : String), w.importOcel g.path = Except.error e →
      Effect.logError ("Importing the log had the following error: " ++ e) ∈
        run w (Cli.mk b (BaseCommands.ocdg (OcdgCommands.generate g))))
    ∧ (∀ (g : OcdgGeneration) (lg : OcelLog) (e : String),
        w.importOcel g.path = Except.ok lg →
        w.exportOcdg (w.generateOcdg lg Relations.iterList)
            (g.output.getD "output.gexf") = Except.error e →
        Effect.logError ("Generating the OCDG had the following error: " ++ e) ∈
          run w (Cli.mk b (BaseCommands.ocdg (OcdgCommands.generate g))))
    ∧ (∀ (d : OcdgDecompose) (e : String),
        (rsExtension d.path = some "gexf" ∨ rsExtension d.path = some "gexfocdg") →
        w.importOcdg d.path = Except.error e →
        Effect.logError ("Failed to import " ++ debugQuote d.path ++ " with error: " ++ e) ∈
          run w (Cli.mk b (BaseCommands.ocdg (OcdgCommands.decompose d))))
    ∧ (∀ (d : OcdgDecompose) (g : Ocdg) (e : String),
        (rsExtension d.path = some "gexf" ∨ rsExtension d.path = some "gexfocdg") →
        w.importOcdg d.path = Except.ok g →
        w.exportOcdg (decompose_in_place g)
            (d.output.getD "output-decomposed.gexf") = Except.error e →
        Effect.logError ("Could not export OCDG due to: " ++ e) ∈
          run w (Cli.mk b (BaseCommands.ocdg (OcdgCommands.decompose d))))
    ∧ (∀ (p e : String), rsEndsWith p ".jsonocel" = true →
        w.validateOcelVerbose p = Except.error e →
        Effect.printLine ("There was an Error: " ++ e) ∈
          run w (Cli.mk b (BaseCommands.ocel (OcelCommands.validate ⟨p, true⟩))))
    ∧ (∀ (p e : String), rsEndsWith p ".jsonocel" = true →
        w.validateOcel p = Except.error e →
        Effect.printLine ("There was an Error: " ++ e) ∈
          run w (Cli.mk b (BaseCommands.ocel (OcelCommands.validate ⟨p, false⟩)))) := by
  refine ⟨?_, ?_, ?_, ?_, ?_, ?_⟩
  · intro g e hi
    simp only [run, dispatch, dispatchOcdg, runGenerate, hi]
    rcases g.output with _ | c <;> simp
  · intro g lg e hok hex
    rcases hO : g.output with _ | c <;>
      rw [hO] at hex <;>
        simp only [Option.getD_some, Option.getD_none] at hex <;>
          simp only [run, dispatch, dispatchOcdg, runGenerate, hO, hok, hex] <;>
            simp
  · intro d e hgood hi
    rcases hgood with hg | hg <;>
      simp only [run, dispatch, dispatchOcdg, runDecompose, hg, hi] <;>
        rcases d.output with _ | c <;> simp
  · intro d g e hgood hok hex
    rcases hO : d.output with _ | c <;>
      rw [hO] at hex <;>
        simp only [Option.getD_some, Option.getD_none] at hex <;>
          rcases hgood with hg | hg <;>
            simp only [run, dispatch, dispatchOcdg, runDecompose, hO, hg, hok, hex] <;>
              simp
  · intro p e hE herr
    simp only [run, dispatch, dispatchOcel, runValidate, hE, herr]
    simp
  · intro p e hE herr
    simp only [run, dispatch, dispatchOcel, runValidate, hE, herr]
    simp

/-- Witness for C7: on `wErr` a generate run with a failing import logs that
error, and a verbose validate run with a failing validator prints the
error line. -/
theorem core_errors_logged_witness :
    Effect.logError ("Importing the log had the following error: " ++ "no such file") ∈
      run wErr (Cli.mk false (BaseCommands.ocdg (OcdgCommands.generate ⟨"log.jsonocel", none⟩)))
    ∧ Effect.printLine ("There was an Error: " ++ "parse failure") ∈
      run wErr (Cli.mk false (BaseCommands.ocel (OcelCommands.validate ⟨"log.jsonocel", true⟩))) :=
  ⟨(core_errors_logged wErr false).1 ⟨"log.jsonocel", none⟩ "no such file" rfl,
   (core_errors_logged wErr false).2.2.2.2.1 "log.jsonocel" "parse failure" (by decide) rfl⟩

/-- C8: decomposition preserves the node set exactly — `decompose` removes no
node, even one all of whose edges were removed as redundant. -/
theorem decompose_preserves_nodes (g : Ocdg) :
    (decompose_in_place g).nodes = g.nodes := rfl

/-- C9: the `ocel situations` subcommand is accepted by the parser but its
handler is empty — a run of it consists of the logger initialisation and
nothing else: no library call, no printed line, no log line, no export. -/
theorem situations_no_action (w : World) (b : Bool) (s : OcelSituations) :
    run w (Cli.mk b (BaseCommands.ocel (OcelCommands.situations s))) = [loggerEffect b] := rfl

/-- C10: in every run the very first effect is the logger initialisation —
filter level Debug targeting stdout when the global `--debug` flag is set, the
environment-driven default otherwise — and it is the only logger
initialisation in the whole trace, so the logger is set up exactly once,
before any command is dispatched. -/
theorem logger_init_once (w : World) (cli : Cli) :
    (run w cli).head? =
      some (if cli.debug then Effect.loggerInitDebugStdout else Effect.loggerInitEnvDefault)
    ∧ (run w cli).filter Effect.isLoggerInit =
      [if cli.debug then Effect.loggerInitDebugStdout else Effect.loggerInitEnvDefault] := by
  have hnone : (dispatch w cli.commands).filter Effect.isLoggerInit = [] :=
    filter_loggerInit_dispatch w cli.commands
  constructor
  · cases hb : cli.debug <;> simp [run, loggerEffect, hb]
  · cases hb : cli.debug <;>
      simp [run, loggerEffect, hb, List.filter_cons, Effect.isLoggerInit, hnone]

end PmrsCli
